import Mathlib

/-!
Shallow embedding of the Vaulted source-resolution pipeline
(`src/services/sources.ts` together with the player fallback loop of the
watch page) and theorems checking the specification's claims about it.

JavaScript strings are modelled as Lean `String`s; `toLowerCase`,
`includes` and suffix-regex tests are modelled by executable char-list
functions below.  `Promise`-returning calls that may reject are modelled
as `Except`-valued functions; `async` state machines become explicit
recursion with a call counter for the polled endpoint.
-/

namespace Vaulted

instance {ε α : Type} [DecidableEq ε] [DecidableEq α] : DecidableEq (Except ε α) := fun a b =>
  match a, b with
  | .ok x, .ok y =>
    if h : x = y then isTrue (by rw [h]) else isFalse (fun c => by injection c; contradiction)
  | .error x, .error y =>
    if h : x = y then isTrue (by rw [h]) else isFalse (fun c => by injection c; contradiction)
  | .ok _, .error _ => isFalse (fun c => by injection c)
  | .error _, .ok _ => isFalse (fun c => by injection c)

/-- Lowercasing a string character by character, the model of
JavaScript `toLowerCase` used throughout `sources.ts`. -/
def lowerStr (s : String) : String := String.mk (s.data.map Char.toLower)

/-- Helper for `strIncludes`: does `pat` occur as a contiguous
subsequence of the character list? -/
def subAux (pat : List Char) : List Char → Bool
  | [] => pat.isEmpty
  | c :: rest => (List.isPrefixOf pat (c :: rest)) || subAux pat rest

/-- Model of JavaScript `String.prototype.includes`. -/
def strIncludes (s pat : String) : Bool := subAux pat.data s.data

/-- Model of an end-anchored suffix test (a regex of the shape
`/\.(e1|e2|...)$/i` applied after lowercasing). -/
def endsWithStr (s pat : String) : Bool := List.isPrefixOf pat.data.reverse s.data.reverse

/-- The five quality tiers of `StreamSource['quality']`. -/
inductive Quality
  | q4K
  | q1080p
  | q720p
  | q480p
  | unknown
deriving DecidableEq

/-- The `QUALITY_RANK` table of `sources.ts` (lines 33-39). -/
def qualityRank : Quality → Nat
  | .q4K => 4
  | .q1080p => 3
  | .q720p => 2
  | .q480p => 1
  | .unknown => 0

/-- The `parseQuality` function of `sources.ts` (lines 42-49): lowercase
the title and check substrings in fixed precedence. -/
def parseQuality (title : String) : Quality :=
  let lower := lowerStr title
  if strIncludes lower "2160p" || strIncludes lower "4k" || strIncludes lower "uhd" then .q4K
  else if strIncludes lower "1080p" || strIncludes lower "fhd" then .q1080p
  else if strIncludes lower "720p" || strIncludes lower "hd" then .q720p
  else if strIncludes lower "480p" || strIncludes lower "sd" then .q480p
  else .unknown

/-- Modelled from the spec (section 4.1): the ordered rule table of the
Quality Classifier, used to state the refinement claim C4 against
`parseQuality`. -/
def ruleTable : List (List String × Quality) :=
  [ (["2160p", "4k", "uhd"], .q4K)
  , (["1080p", "fhd"], .q1080p)
  , (["720p", "hd"], .q720p)
  , (["480p", "sd"], .q480p) ]

/-- Modelled from the spec (section 4.1): `classify` walks the ordered
rule table and returns the tier of the first rule one of whose patterns
occurs in the lowercased text, else `Unknown`. -/
def classifySpec (text : String) : Quality :=
  match ruleTable.find? (fun rule => rule.1.any (fun pat => strIncludes (lowerStr text) pat)) with
  | some rule => rule.2
  | none => .unknown

/-- The `StreamSource` interface of `sources.ts` (lines 11-22).
Optional fields are `Option`s. -/
structure StreamSource where
  id : String
  name : String
  title : String
  quality : Quality
  type : String
  url : String
  size : Option String := none
  seeds : Option Nat := none
  provider : String
  cached : Option Bool := none
deriving DecidableEq

/-- JavaScript truthiness of the optional `cached` field (`a.cached`
inside the comparators): absent counts as `false`. -/
def cachedB (s : StreamSource) : Bool := s.cached.getD false

/-- JavaScript `(x.seeds || 0)` of the comparator: a missing seed count
is treated as `0`. -/
def seedsD (s : StreamSource) : Nat := s.seeds.getD 0

/-- The comparator of `getSortedSources` (`sources.ts` lines 164-175):
cached first, then quality rank descending, then seeds descending. -/
def compareSources (a b : StreamSource) : Int :=
  if cachedB a && !cachedB b then -1
  else if !cachedB a && cachedB b then 1
  else
    let qualityDiff : Int := (qualityRank b.quality : Int) - (qualityRank a.quality : Int)
    if qualityDiff ≠ 0 then qualityDiff
    else (seedsD b : Int) - (seedsD a : Int)

/-- The non-strict order induced by the comparator: `a` may be placed
before `b` exactly when `compareSources a b ≤ 0`. -/
def leSrc (a b : StreamSource) : Prop := compareSources a b ≤ 0

instance : DecidableRel leSrc := fun a b => Int.decLe (compareSources a b) 0

/-- The `getSortedSources` method (`sources.ts` lines 163-176).
JavaScript `Array.prototype.sort` is a stable sort, and for the
consistent comparator `compareSources` the stably sorted permutation is
unique, so it is embedded as a stable insertion sort under `leSrc`. -/
def getSortedSources (sources : List StreamSource) : List StreamSource :=
  List.insertionSort leSrc sources

/-- The media kind argument of provider `fetch` capabilities. -/
inductive MediaType
  | movie
  | series
deriving DecidableEq

/-- The argument tuple of `SourceProvider.fetch`. -/
structure FetchInput where
  imdbId : String
  mediaType : MediaType
  season : Option Nat := none
  episode : Option Nat := none

/-- The `SourceProvider` interface of `sources.ts` (lines 24-30).  The
`fetch` capability may fail (a thrown error or rejected promise is an
`Except.error`). -/
structure SourceProvider where
  id : String
  name : String
  enabled : Bool
  priority : Int
  fetch : FetchInput → Except String (List StreamSource)

/-- Order used by the registry sort `(a, b) => a.priority - b.priority`. -/
def leProv (a b : SourceProvider) : Prop := a.priority ≤ b.priority

instance : DecidableRel leProv := fun a b => Int.decLe a.priority b.priority

/-- The `registerProvider` method (`sources.ts` lines 73-76): push the
provider and stably re-sort the list by ascending priority.  There is no
duplicate-id check. -/
def registerProvider (providers : List SourceProvider) (p : SourceProvider) :
    List SourceProvider :=
  List.insertionSort leProv (providers ++ [p])

/-- The per-provider `.catch(err => [])` wrapper inside
`fetchAllSources` (lines 118-123): a failed fetch settles as a
fulfilled empty list. -/
def settleFetch (inp : FetchInput) (p : SourceProvider) : Except String (List StreamSource) :=
  match p.fetch inp with
  | .ok sources => .ok sources
  | .error _ => .ok []

/-- The list a provider contributes to the batch: its results, or `[]`
if its fetch failed. -/
def fetchCaught (inp : FetchInput) (p : SourceProvider) : List StreamSource :=
  match p.fetch inp with
  | .ok sources => sources
  | .error _ => []

/-- The `fetchAllSources` method (`sources.ts` lines 109-135): filter
enabled providers, settle every wrapped fetch (`Promise.allSettled`
keeps the input order of `enabledProviders`), then push each fulfilled
value in that order. -/
def fetchAllSources (providers : List SourceProvider) (inp : FetchInput) : List StreamSource :=
  let enabledProviders := providers.filter (·.enabled)
  let results := enabledProviders.map (settleFetch inp)
  results.foldl
    (fun allSources r =>
      match r with
      | .ok v => allSources ++ v
      | .error _ => allSources) []

/-- Loop body of `trySourcesInOrder` (`sources.ts` lines 185-194): walk
the list, return the first source whose `onTry` succeeds with `true`; a
`false` result or a thrown error moves to the next candidate. -/
def trySourcesGo (onTry : StreamSource → Except String Bool) :
    List StreamSource → Option StreamSource
  | [] => none
  | s :: rest =>
    match onTry s with
    | .ok true => some s
    | .ok false => trySourcesGo onTry rest
    | .error _ => trySourcesGo onTry rest

/-- The `trySourcesInOrder` method (`sources.ts` lines 179-195): sort,
then try candidates in order; exhaustion returns `null` (here `none`). -/
def trySourcesInOrder (sources : List StreamSource)
    (onTry : StreamSource → Except String Bool) : Option StreamSource :=
  trySourcesGo onTry (getSortedSources sources)

/-- The fixed message the watch page shows when the fallback recursion
of `tryPlaySource` runs off the end of `allSources`. -/
def allFailedMessage : String := "All sources failed. Try selecting manually."

/-- Model of the fallback recursion of `tryPlaySource` in the watch page
(the `catch` branch advances to the next index; past the last index the
fixed `allFailedMessage` is surfaced). -/
def tryPlayGo (attempt : StreamSource → Except String String) :
    List StreamSource → Except String String
  | [] => .error allFailedMessage
  | s :: rest =>
    match attempt s with
    | .ok url => .ok url
    | .error _ => tryPlayGo attempt rest

/-- The playable video extensions of the file-selection step of
`addToDebrid` (line 596). -/
def videoExtensions : List String :=
  ["mp4", "mkv", "avi", "mov", "wmv", "webm", "m4v", "ts", "m2ts"]

/-- The regex test `/\.(mp4|mkv|avi|mov|wmv|webm|m4v|ts|m2ts)$/i` on a
file path. -/
def isPlayableVideo (path : String) : Bool :=
  videoExtensions.any (fun ext => endsWithStr (lowerStr path) ("." ++ ext))

/-- The archive and disc-image extensions excluded from links and from
the final unrestricted URL (lines 640 and 667). -/
def archiveExtensions : List String := ["iso", "rar", "zip", "7z", "tar", "gz"]

/-- The regex test `/\.(iso|rar|zip|7z|tar|gz)$/i` on a link. -/
def isArchiveLink (link : String) : Bool :=
  archiveExtensions.any (fun ext => endsWithStr (lowerStr link) ("." ++ ext))

/-- One entry of a torrent's `files` array as used by the selection step
of `addToDebrid`. -/
structure RDFile where
  id : Nat
  path : String
  bytes : Nat
  selected : Nat
deriving DecidableEq

/-- The reducer `(a, b) => a.bytes > b.bytes ? a : b` of line 604. -/
def pickLargerFile (a b : RDFile) : RDFile := if a.bytes > b.bytes then a else b

/-- The filter of lines 597-599: unselected files with a playable video
extension. -/
def selectVideoFiles (files : List RDFile) : List RDFile :=
  files.filter (fun f => isPlayableVideo f.path && f.selected == 0)

/-- The file-selection computation of `addToDebrid` (lines 601-611): the
id of the largest playable unselected video file, or `"all"` when there
is none. -/
def selectFileIds (files : List RDFile) : String :=
  match selectVideoFiles files with
  | [] => "all"
  | f :: fs => toString (fs.foldl pickLargerFile f).id

/-- Hex digit per the `[a-fA-F0-9]` character class. -/
def isHexChar (c : Char) : Bool := c.isDigit || ('a' ≤ c && c ≤ 'f') || ('A' ≤ c && c ≤ 'F')

/-- Base32 digit per the `[a-zA-Z2-7]` character class. -/
def isBase32Char (c : Char) : Bool := c.isAlpha || ('2' ≤ c && c ≤ '7')

/-- The literal `btih:` part of the info-hash pattern. -/
def btihMarker : List Char := ['b', 't', 'i', 'h', ':']

/-- One attempt of the regex `btih:([a-fA-F0-9]{40}|[a-zA-Z2-7]{32})`
(case-insensitive) at the head of the character list: the 40-hex
alternative is tried before the 32-base32 one. -/
def matchBtihAt (cs : List Char) : Option String :=
  if (cs.take 5).map Char.toLower = btihMarker then
    let rest := cs.drop 5
    let hex := rest.take 40
    if hex.length = 40 && hex.all isHexChar then some (String.mk hex)
    else
      let b32 := rest.take 32
      if b32.length = 32 && b32.all isBase32Char then some (String.mk b32)
      else none
  else none

/-- Leftmost-match regex search for the info-hash pattern. -/
def findBtih : List Char → Option String
  | [] => none
  | c :: rest =>
    match matchBtihAt (c :: rest) with
    | some h => some h
    | none => findBtih rest

/-- The hash extraction of `checkDebridCache` (lines 438-441):
`m.match(/btih:([a-fA-F0-9]{40}|[a-zA-Z2-7]{32})/i)` and lowercasing of
the captured group. -/
def extractHash (magnet : String) : Option String :=
  (findBtih magnet.data).map lowerStr

/-- The hash list of `checkDebridCache` (lines 437-442): extract per
magnet link and drop the `null`s.  No deduplication is performed. -/
def rdHashes (magnetLinks : List String) : List String := magnetLinks.filterMap extractHash

/-- The fixed availability batch size of `checkDebridCache` (line 447). -/
def batchSize : Nat := 50

/-- The batching loop of `checkDebridCache` (lines 450-451): successive
`slice(i, i + 50)` windows.  The fuel argument is the list length, so
the recursion is structural. -/
def chunksAux : Nat → List String → List (List String)
  | _, [] => []
  | 0, _ :: _ => []
  | fuel + 1, x :: xs => (x :: xs).take batchSize :: chunksAux fuel ((x :: xs).drop batchSize)

/-- The batches actually sent to the availability endpoint in one
`checkDebridCache` call. -/
def rdBatches (hashes : List String) : List (List String) := chunksAux hashes.length hashes

/-- One stream object of a Torrentio reply (`TorrentioStream`,
`sources.ts` lines 214-224); `filename` stands for
`behaviorHints?.filename`. -/
structure TorrentioStream where
  name : String
  title : String
  url : Option String := none
  infoHash : Option String := none
  filename : Option String := none
deriving DecidableEq

/-- JavaScript `x || d` on strings: the default replaces both a missing
and an empty value. -/
def jsOr (s d : String) : String := if s = "" then d else s

/-- The stream-URL computation of `fetchTorrentio` (lines 255-262):
take `stream.url` if truthy, else build a magnet from a truthy
`infoHash`, appending `&dn=` with the encoded filename when present.
`enc` abstracts `encodeURIComponent`. -/
def torrentioStreamUrl (enc : String → String) (stream : TorrentioStream) : String :=
  let base := stream.url.getD ""
  if base = "" then
    match stream.infoHash with
    | some h =>
      if h = "" then base
      else
        let magnet := "magnet:?xt=urn:btih:" ++ h
        match stream.filename with
        | some fn => if fn = "" then magnet else magnet ++ "&dn=" ++ enc fn
        | none => magnet
    | none => base
  else base

/-- The candidate built from one Torrentio stream (lines 264-274).
`seedsOf` and `sizeOf` abstract the `extractSeeds` and `extractSize`
helpers, which do not affect the locator. -/
def mkTorrentioSource (enc : String → String) (seedsOf : String → Nat)
    (sizeOf : String → String) (idx : Nat) (stream : TorrentioStream) : StreamSource :=
  { id := "torrentio-" ++ toString idx
    name := jsOr stream.name "Unknown"
    title := stream.title
    quality := parseQuality (jsOr stream.title (jsOr stream.name ""))
    type := "torrent"
    url := torrentioStreamUrl enc stream
    provider := "Torrentio"
    seeds := some (seedsOf (jsOr stream.title ""))
    size := some (sizeOf (jsOr stream.title "")) }

/-- The pure core of `fetchTorrentio` (lines 254-275): map the streams
to candidates and keep only those with a truthy (non-empty) `url`. -/
def fetchTorrentioPure (enc : String → String) (seedsOf : String → Nat)
    (sizeOf : String → String) (streams : List TorrentioStream) : List StreamSource :=
  (streams.enum.map (fun p => mkTorrentioSource enc seedsOf sizeOf p.1 p.2)).filter
    (fun s => s.url != "")

/-- A torrent-info reply body as consumed by the two polling loops:
`status`, `links` (absent modelled as `[]`) and `files`. -/
structure TorrentInfo where
  status : String
  links : List String := []
  files : Option (List RDFile) := none
deriving DecidableEq

/-- One reply of the torrent-info endpoint: HTTP 400, another non-OK
status, or an OK reply with a body. -/
inductive InfoResp
  | badRequest
  | httpFail
  | ok (info : TorrentInfo)
deriving DecidableEq

/-- The environment of one `addToDebrid` run: the configured key and
the behaviour of each Real-Debrid endpoint.  The torrent-info endpoint
is indexed by the number of the call, since it is polled repeatedly. -/
structure RDEnv where
  apiKey : Option String
  addMagnet : Except String String
  info : Nat → InfoResp
  selectOk : Bool
  unrestrict : Except String String

/-- Outcome of a polling loop: the thrown error or returned info, the
number of `deleteTorrent` calls made, and the next info-call index. -/
structure PollResult where
  result : Except String TorrentInfo
  deletes : Nat
  next : Nat

/-- The terminal torrent error statuses checked by both polling loops
(`magnet_error`, `error`, `virus`, `dead`). -/
def errorStatuses : List String := ["magnet_error", "error", "virus", "dead"]

/-- The `waitForTorrentReady` loop (`sources.ts` lines 523-556), with
`fuel` the remaining attempts and `k` the info-call index.  HTTP 400,
a terminal error status, and attempt exhaustion each delete the torrent
before throwing; a non-OK info reply throws without deleting. -/
def waitReadyAux (env : RDEnv) : Nat → Nat → PollResult
  | 0, k => ⟨.error "Torrent not ready in time", 1, k⟩
  | fuel + 1, k =>
    match env.info k with
    | .badRequest => ⟨.error "Torrent not cached on Real-Debrid", 1, k + 1⟩
    | .httpFail => ⟨.error "Failed to get torrent info", 0, k + 1⟩
    | .ok info =>
      if info.status == "waiting_files_selection" then ⟨.ok info, 0, k + 1⟩
      else if info.status == "downloaded" then ⟨.ok info, 0, k + 1⟩
      else if errorStatuses.contains info.status then
        ⟨.error ("Torrent error: " ++ info.status), 1, k + 1⟩
      else waitReadyAux env fuel (k + 1)

/-- The `waitForTorrentLinks` loop (`sources.ts` lines 492-520).  HTTP
400 and a terminal error status delete the torrent before throwing; a
non-OK info reply and the attempt-exhaustion branch (lines 517-519)
throw without deleting. -/
def waitLinksAux (env : RDEnv) : Nat → Nat → PollResult
  | 0, k => ⟨.error "Torrent download timeout", 0, k⟩
  | fuel + 1, k =>
    match env.info k with
    | .badRequest => ⟨.error "Torrent not available", 1, k + 1⟩
    | .httpFail => ⟨.error "Failed to get torrent info", 0, k + 1⟩
    | .ok info =>
      if info.status == "downloaded" && !info.links.isEmpty then ⟨.ok info, 0, k + 1⟩
      else if errorStatuses.contains info.status then
        ⟨.error ("Torrent error: " ++ info.status), 1, k + 1⟩
      else waitLinksAux env fuel (k + 1)

/-- The body of `addToDebrid` inside its `try` (lines 565-677): add the
magnet, wait for readiness (10 attempts), compute the file selection
when `waiting_files_selection` (the outcome of the select call is
ignored, line 622-625), wait for links (30 attempts), filter archive
links, unrestrict, and reject an archive or missing final URL.
`Except.error` is a thrown error, `Except.ok none` an explicit `null`
return. -/
def addToDebridBody (env : RDEnv) (magnetLink : String) : Except String (Option String) :=
  match env.addMagnet with
  | .error status => .error ("Failed to add magnet: " ++ status)
  | .ok _torrentId =>
    let ready := waitReadyAux env 10 0
    match ready.result with
    | .error e => .error e
    | .ok info =>
      let _fileIds :=
        if info.status == "waiting_files_selection" then selectFileIds (info.files.getD [])
        else "all"
      let final := waitLinksAux env 30 ready.next
      match final.result with
      | .error e => .error e
      | .ok finalInfo =>
        if finalInfo.links.isEmpty then .ok none
        else
          let playableLinks := finalInfo.links.filter (fun link => !isArchiveLink link)
          if playableLinks.isEmpty then .ok none
          else
            match env.unrestrict with
            | .error _ => .error "Failed to unrestrict link"
            | .ok download =>
              if isArchiveLink download then .ok none
              else if download = "" then .ok none
              else .ok (some download)

/-- The exported `addToDebrid` (lines 558-682): `null` without a key,
otherwise the body with every thrown error caught and collapsed to
`null`. -/
def addToDebrid (env : RDEnv) (magnetLink : String) : Option String :=
  match env.apiKey with
  | none => none
  | some _ =>
    match addToDebridBody env magnetLink with
    | .ok result => result
    | .error _ => none

/-- The end-to-end ranking scenario's 720p uncached candidate. -/
def scen720 : StreamSource :=
  { id := "t1", name := "A", title := "720p", quality := .q720p, type := "torrent",
    url := "u1", seeds := some 50, provider := "Torrentio", cached := some false }

/-- The end-to-end ranking scenario's 1080p cached candidate. -/
def scen1080c : StreamSource :=
  { id := "t2", name := "B", title := "1080p", quality := .q1080p, type := "torrent",
    url := "u2", seeds := some 5, provider := "Torrentio", cached := some true }

/-- The end-to-end ranking scenario's 4K uncached candidate. -/
def scen4k : StreamSource :=
  { id := "t3", name := "C", title := "4K", quality := .q4K, type := "torrent",
    url := "u3", seeds := some 200, provider := "Torrentio", cached := some false }

/-- First of two candidates that tie on `cached`, quality and seeds. -/
def tieA : StreamSource :=
  { id := "tieA", name := "A", title := "720p a", quality := .q720p, type := "torrent",
    url := "u4", seeds := some 7, provider := "Torrentio", cached := some false }

/-- Second of two candidates that tie on `cached`, quality and seeds. -/
def tieB : StreamSource :=
  { id := "tieB", name := "B", title := "720p b", quality := .q720p, type := "torrent",
    url := "u5", seeds := some 7, provider := "Torrentio", cached := some false }

/-- A direct-embed candidate from a different provider than the
torrent fixtures. -/
def srcVid : StreamSource :=
  { id := "vidsrc-to", name := "VidSrc.to", title := "Free streaming embed",
    quality := .q1080p, type := "direct", url := "https://vidsrc.to/embed/movie/tt1",
    provider := "VidSrc" }

/-- A fixed fetch input for concrete evaluations. -/
def inp0 : FetchInput := ⟨"tt0111161", .movie, none, none⟩

/-- A provider whose fetch succeeds with one candidate. -/
def provGood : SourceProvider :=
  ⟨"torrentio", "Torrentio", true, 1, fun _ => .ok [scen720]⟩

/-- A provider whose fetch rejects. -/
def provBad : SourceProvider :=
  ⟨"vidsrc", "VidSrc", true, 2, fun _ => .error "network down"⟩

/-- A candidate with an empty locator. -/
def emptyUrlSource : StreamSource :=
  { id := "x", name := "X", title := "", quality := .unknown, type := "direct",
    url := "", provider := "Evil" }

/-- A provider whose fetch fulfills with a candidate that has an empty
locator. -/
def provEvil : SourceProvider :=
  ⟨"evil", "Evil", true, 1, fun _ => .ok [emptyUrlSource]⟩

/-- A provider registration under the id `torrentio`. -/
def provTorrentio1 : SourceProvider :=
  ⟨"torrentio", "Torrentio", true, 1, fun _ => .ok []⟩

/-- A second, distinct provider registration under the same id
`torrentio`. -/
def provTorrentio2 : SourceProvider :=
  ⟨"torrentio", "Torrentio again", true, 2, fun _ => .ok []⟩

/-- An `onTry` callback that throws on every candidate. -/
def failTry : StreamSource → Except String Bool := fun _ => .error "play failed"

/-- An attempt callback for the watch-page loop that throws on every
candidate. -/
def failAttempt : StreamSource → Except String String := fun _ => .error "play failed"

/-- The identity as a concrete stand-in for `encodeURIComponent`. -/
def encId : String → String := fun s => s

/-- A concrete stand-in for the `extractSeeds` helper. -/
def seeds0 : String → Nat := fun _ => 0

/-- A concrete stand-in for the `extractSize` helper. -/
def size0 : String → String := fun _ => ""

/-- A Torrentio stream carrying a direct url. -/
def streamA : TorrentioStream :=
  { name := "Torrentio 4k", title := "Movie 2160p", url := some "https://example.org/a.mkv" }

/-- The smaller playable file of the file-selection scenario. -/
def fileX : RDFile := ⟨1, "x.mp4", 100, 0⟩

/-- The larger playable file of the file-selection scenario. -/
def fileY : RDFile := ⟨2, "y.mkv", 500, 0⟩

/-- The 40-hex info-hash `aaaa…a`. -/
def hash40a : String := String.mk (List.replicate 40 'a')

/-- A magnet link whose info-hash is `hash40a`. -/
def magnet40a : String := "magnet:?xt=urn:btih:" ++ hash40a

/-- Fifty-one copies of the same magnet link. -/
def magnets51 : List String := List.replicate 51 magnet40a

/-- A magnet-link argument for concrete `addToDebrid` runs. -/
def magnetSample : String := magnet40a

/-- A torrent stuck in status `downloading` forever. -/
def infoDownloading : TorrentInfo := ⟨"downloading", [], none⟩

/-- Environment whose torrent never leaves `downloading`. -/
def envStuck : RDEnv := ⟨some "key", .ok "TID1", fun _ => .ok infoDownloading, true, .ok ""⟩

/-- Environment whose add-magnet call fails. -/
def envAddFail : RDEnv := ⟨some "key", .error "503", fun _ => .badRequest, true, .ok ""⟩

/-- Environment whose torrent-info endpoint replies HTTP 400. -/
def envNotCached : RDEnv := ⟨some "key", .ok "TID2", fun _ => .badRequest, true, .ok ""⟩

/-- Environment whose torrent ends in the terminal `magnet_error`
status. -/
def envTorrentError : RDEnv :=
  ⟨some "key", .ok "TID3", fun _ => .ok ⟨"magnet_error", [], none⟩, true, .ok ""⟩

/-- Environment whose downloaded torrent offers only a disc image. -/
def envArchiveOnly : RDEnv :=
  ⟨some "key", .ok "TID4", fun _ => .ok ⟨"downloaded", ["https://rd.example/x.iso"], none⟩,
    true, .ok "https://rd.example/x.mkv"⟩

/-- Environment whose unrestrict call fails. -/
def envUnrestrictFail : RDEnv :=
  ⟨some "key", .ok "TID5", fun _ => .ok ⟨"downloaded", ["https://rd.example/x.mkv"], none⟩,
    true, .error "403"⟩

/-- Environment whose unrestricted final URL is an archive. -/
def envArchiveFinal : RDEnv :=
  ⟨some "key", .ok "TID6", fun _ => .ok ⟨"downloaded", ["https://rd.example/x.mkv"], none⟩,
    true, .ok "https://rd.example/y.rar"⟩

end Vaulted

namespace Vaulted

theorem leSrc_iff (a b : StreamSource) :
    leSrc a b ↔
      (cachedB a = true ∧ cachedB b = false) ∨
      (cachedB a = cachedB b ∧
        (qualityRank b.quality < qualityRank a.quality ∨
          (qualityRank a.quality = qualityRank b.quality ∧ seedsD b ≤ seedsD a))) := by
  cases ha : cachedB a <;> cases hb : cachedB b <;>
    simp only [leSrc, compareSources, ha, hb, Bool.true_and, Bool.false_and, Bool.and_true,
      Bool.and_false, Bool.not_true, Bool.not_false, if_true, if_false, Bool.false_eq_true,
      Bool.true_eq_false, and_false, false_and, and_true, true_and, false_or, or_false,
      ite_true, ite_false] <;>
    (try split_ifs with h) <;> first | omega | decide

theorem compareSources_swap (a b : StreamSource) :
    compareSources b a = -compareSources a b := by
  cases ha : cachedB a <;> cases hb : cachedB b <;>
    simp only [compareSources, ha, hb, Bool.true_and, Bool.false_and, Bool.and_true,
      Bool.and_false, Bool.not_true, Bool.not_false, if_true, if_false, Bool.false_eq_true,
      Bool.true_eq_false, ite_true, ite_false] <;>
    (try split_ifs with h h2) <;> first | omega | decide

instance : IsTotal StreamSource leSrc :=
  ⟨fun a b => by
    unfold leSrc
    rw [compareSources_swap a b]
    omega⟩

instance : IsTrans StreamSource leSrc :=
  ⟨fun a b c hab hbc => by
    rw [leSrc_iff] at hab hbc ⊢
    rcases hab with ⟨ha1, hb1⟩ | ⟨he1, hd1⟩ <;> rcases hbc with ⟨hb2, hc2⟩ | ⟨he2, hd2⟩
    · rw [hb1] at hb2
      exact absurd hb2 (by decide)
    · exact Or.inl ⟨ha1, he2 ▸ hb1⟩
    · exact Or.inl ⟨he1.trans hb2, hc2⟩
    · exact Or.inr ⟨he1.trans he2, by omega⟩⟩

/-- C2: `getSortedSources` is the stable sort under the ranking
comparator: the output is a permutation of the input in which no
uncached candidate precedes a cached one, quality rank is descending
within equal cached status, default-zero seed counts are descending
within equal cached status and quality, candidates that tie on all
three keys keep their input order, and the spec's end-to-end scenario
ranks as `[1080p cached, 4K, 720p]`. -/
theorem getSortedSources_ranking (l : List StreamSource) :
    (getSortedSources l).Perm l ∧
    (getSortedSources l).Pairwise (fun a b =>
      (cachedB b = true → cachedB a = true) ∧
      (cachedB a = cachedB b → qualityRank b.quality ≤ qualityRank a.quality) ∧
      (cachedB a = cachedB b → a.quality = b.quality → seedsD b ≤ seedsD a)) ∧
    (∀ a b : StreamSource, [a, b].Sublist l → cachedB a = cachedB b →
      a.quality = b.quality → seedsD a = seedsD b → [a, b].Sublist (getSortedSources l)) ∧
    getSortedSources [scen720, scen1080c, scen4k] = [scen1080c, scen4k, scen720] := by
  refine ⟨List.perm_insertionSort leSrc l, ?_, ?_, by decide⟩
  · have hs := List.sorted_insertionSort leSrc l
    refine hs.imp ?_
    intro a b hab
    rw [leSrc_iff] at hab
    refine ⟨?_, ?_, ?_⟩
    · intro h
      rcases hab with ⟨ha, hb⟩ | ⟨he, _⟩
      · rw [h] at hb
        exact absurd hb (by decide)
      · exact he.trans h
    · intro hc
      rcases hab with ⟨ha, hb⟩ | ⟨_, hq⟩
      · rw [ha, hb] at hc
        exact absurd hc (by decide)
      · omega
    · intro hc hq
      rcases hab with ⟨ha, hb⟩ | ⟨_, hd⟩
      · rw [ha, hb] at hc
        exact absurd hc (by decide)
      · have : qualityRank a.quality = qualityRank b.quality := by rw [hq]
        omega
  · intro a b hsub hc hq hsd
    refine List.pair_sublist_insertionSort ?_ hsub
    rw [leSrc_iff]
    exact Or.inr ⟨hc, Or.inr ⟨by rw [hq], by omega⟩⟩

/-- Witness for C2: two candidates with identical `cached`, quality and
seed count keep their input order through the sort. -/
theorem getSortedSources_ranking_witness :
    [tieA, tieB].Sublist (getSortedSources [tieA, tieB]) :=
  (getSortedSources_ranking [tieA, tieB]).2.2.1 tieA tieB (List.Sublist.refl _)
    (by decide) (by decide) (by decide)

/-- C4: `parseQuality` is a pure total classifier agreeing with the
spec's ordered rule table (2160p/4k/uhd before 1080p/fhd before 720p/hd
before 480p/sd), and the empty string classifies as `Unknown`. -/
theorem parseQuality_classifier :
    (∀ t, parseQuality t = classifySpec t) ∧ parseQuality "" = Quality.unknown := by
  refine ⟨?_, by decide⟩
  intro t
  cases ha : strIncludes (lowerStr t) "2160p" <;>
  cases hb : strIncludes (lowerStr t) "4k" <;>
  cases hc : strIncludes (lowerStr t) "uhd" <;>
  cases hd : strIncludes (lowerStr t) "1080p" <;>
  cases he : strIncludes (lowerStr t) "fhd" <;>
  cases hf : strIncludes (lowerStr t) "720p" <;>
  cases hg : strIncludes (lowerStr t) "hd" <;>
  cases hh : strIncludes (lowerStr t) "480p" <;>
  cases hi : strIncludes (lowerStr t) "sd" <;>
    simp [parseQuality, classifySpec, ruleTable, List.find?, ha, hb, hc, hd, he, hf, hg, hh, hi]

instance : IsTotal SourceProvider leProv := ⟨fun a b => Int.le_total a.priority b.priority⟩

instance : IsTrans SourceProvider leProv := ⟨fun _ _ _ h h2 => le_trans h h2⟩

/-- Counterexample to C7: registering a second provider under the
already-present id `torrentio` is accepted, so the registry ends up
holding two providers with the same id. -/
theorem registerProvider_duplicate_id :
    ((registerProvider (registerProvider [] provTorrentio1) provTorrentio2).countP
      (fun p => p.id == "torrentio")) = 2 := by decide

/-- C7 (amended): `registerProvider` unconditionally appends the new
provider (a permutation of `p :: providers`, so nothing is rejected or
dropped) and stably re-sorts by ascending priority; it performs no
duplicate-id check. -/
theorem registerProvider_push_sort (providers : List SourceProvider) (p : SourceProvider) :
    (registerProvider providers p).Perm (p :: providers) ∧
    (registerProvider providers p).Sorted leProv :=
  ⟨(List.perm_insertionSort leProv _).trans (List.perm_append_singleton p providers),
   List.sorted_insertionSort leProv _⟩

theorem foldl_settle (rs : List (Except String (List StreamSource))) (acc : List StreamSource) :
    rs.foldl
      (fun allSources r =>
        match r with
        | .ok v => allSources ++ v
        | .error _ => allSources) acc
      = acc ++ (rs.map (fun r =>
        match r with
        | .ok v => v
        | .error _ => [])).flatten := by
  induction rs generalizing acc with
  | nil => simp
  | cons r rs ih => cases r <;> simp [ih, List.append_assoc]

theorem settle_unwrap (inp : FetchInput) (p : SourceProvider) :
    (match settleFetch inp p with
      | .ok v => v
      | .error _ => []) = fetchCaught inp p := by
  unfold settleFetch fetchCaught
  cases p.fetch inp <;> rfl

/-- C5: `fetchAllSources` always produces a plain list; it is the
concatenation, in the (priority-sorted) order of the enabled providers,
of each provider's caught result, where a provider whose fetch failed
contributes `[]` while every other provider's results are kept. -/
theorem fetchAllSources_isolation (providers : List SourceProvider) (inp : FetchInput)
    (hsorted : providers.Pairwise leProv) :
    fetchAllSources providers inp
      = ((providers.filter (·.enabled)).map (fetchCaught inp)).flatten ∧
    (providers.filter (·.enabled)).Pairwise leProv ∧
    ∀ p e, p.fetch inp = .error e → fetchCaught inp p = [] := by
  refine ⟨?_, hsorted.filter _, ?_⟩
  · unfold fetchAllSources
    rw [foldl_settle]
    rw [List.nil_append, List.map_map]
    congr 1
    exact List.map_congr_left (fun p _ => settle_unwrap inp p)
  · intro p e h
    simp [fetchCaught, h]

/-- Witness for C5: with one succeeding and one rejecting provider, the
batch resolves to exactly the succeeding provider's results. -/
theorem fetchAllSources_isolation_witness :
    fetchAllSources [provGood, provBad] inp0 = [scen720] :=
  ((fetchAllSources_isolation [provGood, provBad] inp0 (by decide)).1).trans (by decide)

/-- Counterexample to C3: exhaustion of the fallback loop returns the
bare `none` (and the watch page surfaces the fixed message
`allFailedMessage`), a value that is identical for different attempted
providers and names none of them, rather than an `ExhaustedError`
listing every attempted provider. -/
theorem trySources_exhaustion_generic :
    trySourcesInOrder [scen720] failTry = none ∧
    trySourcesInOrder [srcVid] failTry = none ∧
    scen720.provider ≠ srcVid.provider ∧
    trySourcesInOrder [] failTry = none ∧
    tryPlayGo failAttempt [scen720] = .error allFailedMessage ∧
    tryPlayGo failAttempt [srcVid] = .error allFailedMessage ∧
    strIncludes allFailedMessage scen720.provider = false ∧
    strIncludes allFailedMessage srcVid.provider = false := by decide

theorem trySourcesGo_none (onTry : StreamSource → Except String Bool)
    (h : ∀ s, onTry s ≠ .ok true) : ∀ l, trySourcesGo onTry l = none := by
  intro l
  induction l with
  | nil => rfl
  | cons s rest ih =>
    cases hs : onTry s with
    | ok b =>
      cases b with
      | true => exact absurd hs (h s)
      | false => simp [trySourcesGo, hs, ih]
    | error e => simp [trySourcesGo, hs, ih]

/-- C3 (amended): when every attempt fails (including the
zero-candidate case), `trySourcesInOrder` returns the generic `null`
and the watch-page loop surfaces the fixed generic message; neither
names the attempted providers. -/
theorem trySources_exhaust_null (sources : List StreamSource)
    (onTry : StreamSource → Except String Bool)
    (attempt : StreamSource → Except String String)
    (h1 : ∀ s, onTry s ≠ .ok true)
    (h2 : ∀ s, (attempt s).isOk = false) :
    trySourcesInOrder sources onTry = none ∧
    tryPlayGo attempt sources = .error allFailedMessage := by
  constructor
  · exact trySourcesGo_none onTry h1 _
  · induction sources with
    | nil => rfl
    | cons s rest ih =>
      cases hs : attempt s with
      | ok u =>
        have hko := h2 s
        rw [hs] at hko
        exact absurd hko (by simp [Except.isOk, Except.toBool])
      | error e => simp [tryPlayGo, hs, ih]

/-- Witness for C3 (amended): an all-throwing callback exhausts a
one-candidate list into `none` and the generic message. -/
theorem trySources_exhaust_null_witness :
    trySourcesInOrder [scen720] failTry = none ∧
    tryPlayGo failAttempt [scen720] = .error allFailedMessage :=
  trySources_exhaust_null [scen720] failTry failAttempt
    (fun s => by simp [failTry]) (fun s => by simp [failAttempt, Except.isOk, Except.toBool])

/-- Counterexample to C9: `fetchAllSources` itself performs no locator
filtering, so a provider that fulfils with an empty-url candidate puts
that candidate into the returned list. -/
theorem fetchAllSources_keeps_empty_url :
    fetchAllSources [provEvil] inp0 = [emptyUrlSource] ∧ emptyUrlSource.url = "" := by decide

/-- C9 (amended): the locator invariant is enforced inside the
Torrentio provider, whose `.filter(s => s.url)` discards every
candidate with an empty url before it is returned; `fetchAllSources`
adds no filtering of its own. -/
theorem fetchTorrentio_url_nonempty (enc : String → String) (seedsOf : String → Nat)
    (sizeOf : String → String) (streams : List TorrentioStream) :
    ∀ s ∈ fetchTorrentioPure enc seedsOf sizeOf streams, s.url ≠ "" := by
  intro s hs
  unfold fetchTorrentioPure at hs
  rw [List.mem_filter] at hs
  intro h
  have hs2 := hs.2
  rw [h] at hs2
  simp at hs2

/-- Witness for C9 (amended): a concrete Torrentio stream with a direct
url yields a candidate with a non-empty locator. -/
theorem fetchTorrentio_url_nonempty_witness :
    (mkTorrentioSource encId seeds0 size0 0 streamA).url ≠ "" :=
  fetchTorrentio_url_nonempty encId seeds0 size0 [streamA]
    (mkTorrentioSource encId seeds0 size0 0 streamA) (by decide)

theorem foldl_pickLarger_mem_max (fs : List RDFile) (f : RDFile) :
    fs.foldl pickLargerFile f ∈ f :: fs ∧
    ∀ g ∈ f :: fs, g.bytes ≤ (fs.foldl pickLargerFile f).bytes := by
  induction fs generalizing f with
  | nil =>
    refine ⟨List.mem_cons_self f [], ?_⟩
    intro g hg
    rw [List.mem_singleton] at hg
    rw [hg]
    simp
  | cons b fs ih =>
    obtain ⟨ihm, ihb⟩ := ih (pickLargerFile f b)
    have hpick : pickLargerFile f b = f ∨ pickLargerFile f b = b := by
      unfold pickLargerFile
      split_ifs <;> simp
    constructor
    · simp only [List.foldl_cons]
      rcases List.mem_cons.mp ihm with h | h
      · rw [h]
        rcases hpick with hp | hp <;> rw [hp]
        · exact List.mem_cons_self _ _
        · exact List.mem_cons_of_mem _ (List.mem_cons_self _ _)
      · exact List.mem_cons_of_mem _ (List.mem_cons_of_mem _ h)
    · intro g hg
      simp only [List.foldl_cons]
      have hf : f.bytes ≤ (pickLargerFile f b).bytes := by
        unfold pickLargerFile
        split_ifs <;> omega
      have hb : b.bytes ≤ (pickLargerFile f b).bytes := by
        unfold pickLargerFile
        split_ifs <;> omega
      have hhead := ihb (pickLargerFile f b) (List.mem_cons_self _ _)
      rcases List.mem_cons.mp hg with h | h
      · rw [h]
        exact le_trans hf hhead
      · rcases List.mem_cons.mp h with h2 | h2
        · rw [h2]
          exact le_trans hb hhead
        · exact ihb g (List.mem_cons_of_mem _ h2)

theorem digitChar_isDigit (m : Nat) (h : m < 10) : (Nat.digitChar m).isDigit = true := by
  interval_cases m <;> rfl

theorem toDigitsCore_digits (fuel : Nat) :
    ∀ (n : Nat) (acc : List Char), (∀ c ∈ acc, c.isDigit = true) →
      ∀ c ∈ Nat.toDigitsCore 10 fuel n acc, c.isDigit = true := by
  induction fuel with
  | zero =>
    intro n acc hacc c hc
    simp only [Nat.toDigitsCore] at hc
    exact hacc c hc
  | succ fuel ih =>
    intro n acc hacc c hc
    by_cases h : n / 10 = 0
    · simp only [Nat.toDigitsCore, h, if_true] at hc
      rcases List.mem_cons.mp hc with h2 | h2
      · rw [h2]
        exact digitChar_isDigit _ (Nat.mod_lt _ (by omega))
      · exact hacc c h2
    · simp only [Nat.toDigitsCore, h, if_false] at hc
      refine ih (n / 10) (Nat.digitChar (n % 10) :: acc) ?_ c hc
      intro d hd
      rcases List.mem_cons.mp hd with h2 | h2
      · rw [h2]
        exact digitChar_isDigit _ (Nat.mod_lt _ (by omega))
      · exact hacc d h2

theorem natRepr_ne_all (n : Nat) : Nat.repr n ≠ "all" := by
  intro h
  have hdata : Nat.toDigits 10 n = ['a', 'l', 'l'] := congrArg String.data h
  have hdig : ('a' : Char).isDigit = true := by
    refine toDigitsCore_digits (n + 1) n [] (by simp) 'a' ?_
    rw [show Nat.toDigitsCore 10 (n + 1) n [] = Nat.toDigits 10 n from rfl, hdata]
    simp
  simp at hdig

/-- C6: in the `waiting_files_selection` branch, the selection filters
the files to unselected ones with a playable video extension; when at
least one exists the single largest such file is selected by its
(numeric, hence never `"all"`) id, and when none exists `"all"` is
submitted; for the files `x.mp4` of 100 bytes and `y.mkv` of 500 bytes,
the id `2` of `y.mkv` is selected. -/
theorem selectFileIds_selection (files : List RDFile) :
    (selectVideoFiles files = [] → selectFileIds files = "all") ∧
    (∀ f fs, selectVideoFiles files = f :: fs →
      selectFileIds files = toString (fs.foldl pickLargerFile f).id ∧
      fs.foldl pickLargerFile f ∈ selectVideoFiles files ∧
      (∀ g ∈ selectVideoFiles files, g.bytes ≤ (fs.foldl pickLargerFile f).bytes) ∧
      selectFileIds files ≠ "all") ∧
    selectFileIds [fileX, fileY] = "2" := by
  refine ⟨?_, ?_, by decide⟩
  · intro h
    simp [selectFileIds, h]
  · intro f fs h
    have hm := foldl_pickLarger_mem_max fs f
    have heq : selectFileIds files = toString (fs.foldl pickLargerFile f).id := by
      unfold selectFileIds
      rw [h]
    refine ⟨heq, ?_, ?_, ?_⟩
    · rw [h]
      exact hm.1
    · intro g hg
      rw [h] at hg
      exact hm.2 g hg
    · rw [heq]
      exact natRepr_ne_all _

/-- Witness for C6: on the two-file scenario the branch with a
non-empty playable selection applies, picking the largest file's id,
which is not `"all"`. -/
theorem selectFileIds_selection_witness :
    selectFileIds [fileX, fileY] = toString ([fileY].foldl pickLargerFile fileX).id ∧
    selectFileIds [fileX, fileY] ≠ "all" := by
  have h := (selectFileIds_selection [fileX, fileY]).2.1 fileX [fileY] (by decide)
  exact ⟨h.1, h.2.2.2⟩

/-- Counterexample to C8: the hashes are not deduplicated, so fifty-one
copies of one magnet link produce two availability batches and the
single distinct hash occurs in both requests. -/
theorem checkDebridCache_duplicate_hash :
    (rdBatches (rdHashes magnets51)).length = 2 ∧
    (rdBatches (rdHashes magnets51)).countP (fun batch => batch.contains hash40a) = 2 := by
  decide

theorem chunksAux_flatten (fuel : Nat) :
    ∀ l : List String, l.length ≤ fuel → (chunksAux fuel l).flatten = l := by
  induction fuel with
  | zero =>
    intro l h
    cases l with
    | nil => rfl
    | cons x xs => simp at h
  | succ fuel ih =>
    intro l h
    cases l with
    | nil => rfl
    | cons x xs =>
      simp only [chunksAux, List.flatten_cons]
      rw [ih ((x :: xs).drop batchSize) (by simp [batchSize] at h ⊢; omega)]
      exact List.take_append_drop _ _

theorem chunksAux_mem (fuel : Nat) :
    ∀ (l : List String) (b : List String), b ∈ chunksAux fuel l →
      b ≠ [] ∧ b.length ≤ batchSize := by
  induction fuel with
  | zero =>
    intro l b hb
    cases l <;> simp [chunksAux] at hb
  | succ fuel ih =>
    intro l b hb
    cases l with
    | nil => simp [chunksAux] at hb
    | cons x xs =>
      simp only [chunksAux, List.mem_cons] at hb
      rcases hb with h | h
      · constructor
        · rw [h]
          intro hnil
          have hlen := congrArg List.length hnil
          simp [List.length_take, batchSize] at hlen
        · rw [h]
          exact List.length_take_le _ _
      · exact ih _ b h

/-- C8 (amended): the prechecker batches the extracted hashes without
deduplication: the concatenation of all availability batches is exactly
the per-link extraction result, multiplicity included (so a hash
extracted from several links is queried once per occurrence), and every
batch is a non-empty slice of at most 50 hashes. -/
theorem checkDebridCache_batches (magnetLinks : List String) :
    (rdBatches (rdHashes magnetLinks)).flatten = magnetLinks.filterMap extractHash ∧
    ∀ batch ∈ rdBatches (rdHashes magnetLinks), batch ≠ [] ∧ batch.length ≤ batchSize :=
  ⟨chunksAux_flatten _ _ le_rfl, fun b hb => chunksAux_mem _ _ b hb⟩

/-- Witness for C8 (amended): the first batch of the duplicated-magnet
run is a non-empty slice of at most 50 hashes. -/
theorem checkDebridCache_batches_witness :
    List.replicate 50 hash40a ≠ [] ∧ (List.replicate 50 hash40a).length ≤ batchSize :=
  (checkDebridCache_batches magnets51).2 (List.replicate 50 hash40a) (by decide)

/-- Counterexample to C1: a torrent stuck in `downloading` exhausts the
30 link-wait attempts and the loop fails with the download timeout
without attempting any remote delete. -/
theorem waitLinks_timeout_no_delete :
    (waitLinksAux envStuck 30 0).result = .error "Torrent download timeout" ∧
    (waitLinksAux envStuck 30 0).deletes = 0 := by decide

theorem waitLinks_deletes (env : RDEnv) : ∀ fuel k : Nat,
    ((waitLinksAux env fuel k).result = .error "Torrent download timeout" →
      (waitLinksAux env fuel k).deletes = 0) ∧
    ((waitLinksAux env fuel k).result = .error "Torrent not available" →
      (waitLinksAux env fuel k).deletes = 1) ∧
    ((waitLinksAux env fuel k).result = .error "Failed to get torrent info" →
      (waitLinksAux env fuel k).deletes = 0) ∧
    ((waitLinksAux env fuel k).result = .error "Torrent error: magnet_error" →
      (waitLinksAux env fuel k).deletes = 1) ∧
    ((waitLinksAux env fuel k).result = .error "Torrent error: error" →
      (waitLinksAux env fuel k).deletes = 1) ∧
    ((waitLinksAux env fuel k).result = .error "Torrent error: virus" →
      (waitLinksAux env fuel k).deletes = 1) ∧
    ((waitLinksAux env fuel k).result = .error "Torrent error: dead" →
      (waitLinksAux env fuel k).deletes = 1) := by
  intro fuel
  induction fuel with
  | zero =>
    intro k
    simp only [waitLinksAux]
    decide
  | succ fuel ih =>
    intro k
    cases henv : env.info k with
    | badRequest =>
      simp only [waitLinksAux, henv]
      decide
    | httpFail =>
      simp only [waitLinksAux, henv]
      decide
    | ok info =>
      cases hok : (info.status == "downloaded" && !info.links.isEmpty) with
      | true => simp [waitLinksAux, henv, hok]
      | false =>
        cases herr : errorStatuses.contains info.status with
        | true =>
          have hmem : info.status = "magnet_error" ∨ info.status = "error" ∨
              info.status = "virus" ∨ info.status = "dead" := by
            simpa [errorStatuses, List.contains_eq_any_beq, List.any, beq_iff_eq] using herr
          rcases hmem with h | h | h | h <;>
            (simp only [waitLinksAux, henv, hok, herr, Bool.false_eq_true, if_false,
              if_true, ite_true, ite_false]
             rw [h]
             decide)
        | false =>
          simpa only [waitLinksAux, henv, hok, herr, Bool.false_eq_true, if_false,
            ite_false] using ih (k + 1)

theorem waitReady_deletes (env : RDEnv) : ∀ fuel k : Nat,
    ((waitReadyAux env fuel k).result = .error "Torrent not ready in time" →
      (waitReadyAux env fuel k).deletes = 1) ∧
    ((waitReadyAux env fuel k).result = .error "Torrent not cached on Real-Debrid" →
      (waitReadyAux env fuel k).deletes = 1) ∧
    ((waitReadyAux env fuel k).result = .error "Failed to get torrent info" →
      (waitReadyAux env fuel k).deletes = 0) ∧
    ((waitReadyAux env fuel k).result = .error "Torrent error: magnet_error" →
      (waitReadyAux env fuel k).deletes = 1) ∧
    ((waitReadyAux env fuel k).result = .error "Torrent error: error" →
      (waitReadyAux env fuel k).deletes = 1) ∧
    ((waitReadyAux env fuel k).result = .error "Torrent error: virus" →
      (waitReadyAux env fuel k).deletes = 1) ∧
    ((waitReadyAux env fuel k).result = .error "Torrent error: dead" →
      (waitReadyAux env fuel k).deletes = 1) := by
  intro fuel
  induction fuel with
  | zero =>
    intro k
    simp only [waitReadyAux]
    decide
  | succ fuel ih =>
    intro k
    cases henv : env.info k with
    | badRequest =>
      simp only [waitReadyAux, henv]
      decide
    | httpFail =>
      simp only [waitReadyAux, henv]
      decide
    | ok info =>
      cases hw : (info.status == "waiting_files_selection") with
      | true => simp [waitReadyAux, henv, hw]
      | false =>
        cases hd : (info.status == "downloaded") with
        | true => simp [waitReadyAux, henv, hw, hd]
        | false =>
          cases herr : errorStatuses.contains info.status with
          | true =>
            have hmem : info.status = "magnet_error" ∨ info.status = "error" ∨
                info.status = "virus" ∨ info.status = "dead" := by
              simpa [errorStatuses, List.contains_eq_any_beq, List.any, beq_iff_eq] using herr
            rcases hmem with h | h | h | h <;>
              (simp only [waitReadyAux, henv, hw, hd, herr, Bool.false_eq_true, if_false,
                if_true, ite_true, ite_false]
               rw [h]
               decide)
          | false =>
            simpa only [waitReadyAux, henv, hw, hd, herr, Bool.false_eq_true, if_false,
              ite_false] using ih (k + 1)

/-- C1 (amended): after a successful magnet submission a remote delete
is attempted for the HTTP-400 (not-cached) and terminal torrent-error
failures of both polling loops and for the readiness loop's timeout,
but the link-wait loop's 30-attempt timeout (and the info-fetch failure
of either loop) returns its failure without attempting a delete. -/
theorem debrid_cleanup_policy (env : RDEnv) (fuel k : Nat) :
    (((waitReadyAux env fuel k).result = .error "Torrent not ready in time" →
        (waitReadyAux env fuel k).deletes = 1) ∧
      ((waitReadyAux env fuel k).result = .error "Torrent not cached on Real-Debrid" →
        (waitReadyAux env fuel k).deletes = 1) ∧
      ((waitReadyAux env fuel k).result = .error "Failed to get torrent info" →
        (waitReadyAux env fuel k).deletes = 0) ∧
      ((waitReadyAux env fuel k).result = .error "Torrent error: magnet_error" →
        (waitReadyAux env fuel k).deletes = 1) ∧
      ((waitReadyAux env fuel k).result = .error "Torrent error: error" →
        (waitReadyAux env fuel k).deletes = 1) ∧
      ((waitReadyAux env fuel k).result = .error "Torrent error: virus" →
        (waitReadyAux env fuel k).deletes = 1) ∧
      ((waitReadyAux env fuel k).result = .error "Torrent error: dead" →
        (waitReadyAux env fuel k).deletes = 1)) ∧
    (((waitLinksAux env fuel k).result = .error "Torrent download timeout" →
        (waitLinksAux env fuel k).deletes = 0) ∧
      ((waitLinksAux env fuel k).result = .error "Torrent not available" →
        (waitLinksAux env fuel k).deletes = 1) ∧
      ((waitLinksAux env fuel k).result = .error "Failed to get torrent info" →
        (waitLinksAux env fuel k).deletes = 0) ∧
      ((waitLinksAux env fuel k).result = .error "Torrent error: magnet_error" →
        (waitLinksAux env fuel k).deletes = 1) ∧
      ((waitLinksAux env fuel k).result = .error "Torrent error: error" →
        (waitLinksAux env fuel k).deletes = 1) ∧
      ((waitLinksAux env fuel k).result = .error "Torrent error: virus" →
        (waitLinksAux env fuel k).deletes = 1) ∧
      ((waitLinksAux env fuel k).result = .error "Torrent error: dead" →
        (waitLinksAux env fuel k).deletes = 1)) :=
  ⟨waitReady_deletes env fuel k, waitLinks_deletes env fuel k⟩

/-- Witness for C1 (amended): the HTTP-400 readiness failure performs
exactly one remote delete. -/
theorem debrid_cleanup_policy_witness :
    (waitReadyAux envNotCached 10 0).deletes = 1 :=
  (debrid_cleanup_policy envNotCached 10 0).1.2.1 (by decide)

/-- C10: `addToDebrid` never throws: every error raised inside its body
collapses to the `null` result, and each failure class (add failure,
HTTP 400 info reply, terminal torrent error, polling timeout, archive
links only, unrestrict failure, archive final URL) concretely resolves
to `none`. -/
theorem addToDebrid_never_throws :
    (∀ (env : RDEnv) (magnetLink e : String),
      addToDebridBody env magnetLink = .error e → addToDebrid env magnetLink = none) ∧
    addToDebrid envAddFail magnetSample = none ∧
    addToDebrid envNotCached magnetSample = none ∧
    addToDebrid envTorrentError magnetSample = none ∧
    addToDebrid envStuck magnetSample = none ∧
    addToDebrid envArchiveOnly magnetSample = none ∧
    addToDebrid envUnrestrictFail magnetSample = none ∧
    addToDebrid envArchiveFinal magnetSample = none := by
  refine ⟨?_, by decide, by decide, by decide, by decide, by decide, by decide, by decide⟩
  intro env m e h
  cases hk : env.apiKey <;> simp [addToDebrid, hk, h]

/-- Witness for C10: the unrestrict-failure environment throws inside
the body and `addToDebrid` returns `none` for it. -/
theorem addToDebrid_never_throws_witness :
    addToDebrid envUnrestrictFail magnetSample = none :=
  addToDebrid_never_throws.1 envUnrestrictFail magnetSample
    "Failed to unrestrict link" (by decide)

end Vaulted
